import Mathlib

/-!
Verification of the hallmonitor notification module (src/hallmonitor.py).

The Python module is shallowly embedded below: Python `str` values become
Lean `String`s, byte strings become `List Nat` (each entry < 256), the
mutable gating logic of `_notify` becomes explicit state passing, and the
HTTP transport becomes an oracle `String → Except String (List Nat)`.
The `try/except` around `urllib.request.urlopen` is embedded by matching
on the oracle's `Except` result.  `urllib.parse.quote` / `quote_plus`,
`hmac` + `hashlib.sha256`, `base64.b64encode`, `str.strip`, `str.lower`,
`sorted`, and `strftime("%Y-%m-%dT%H:%M:%S.000Z", gmtime(t))` are embedded
as executable Lean functions following their documented behaviour
(`str.lower` is modelled on the ASCII range).
-/

namespace HM

/-! ## Bytes and percent-encoding (urllib.parse.quote) -/

/-- The sixteen uppercase hex digit characters, as used by `quote`'s
`%XX` escapes. -/
def hexUpper (n : Nat) : Char :=
  "0123456789ABCDEF".data.getD n '0'

/-- urllib's `_ALWAYS_SAFE` byte set: ASCII letters, digits and `_.-~`.
These are the only bytes `quote(s, safe='')` leaves unescaped. -/
def alwaysSafeByte (b : Nat) : Bool :=
  (65 ≤ b && b ≤ 90) || (97 ≤ b && b ≤ 122) || (48 ≤ b && b ≤ 57) ||
    b == 45 || b == 46 || b == 95 || b == 126

/-- UTF-8 encoding of one character (Python `str.encode('utf-8')`,
one code point). -/
def utf8EncodeChar (c : Char) : List Nat :=
  let n := c.toNat
  if n < 128 then [n]
  else if n < 2048 then [192 + n / 64, 128 + n % 64]
  else if n < 65536 then [224 + n / 4096, 128 + (n / 64) % 64, 128 + n % 64]
  else [240 + n / 262144, 128 + (n / 4096) % 64, 128 + (n / 64) % 64, 128 + n % 64]

/-- UTF-8 encoding of a string, as a byte list. -/
def utf8Encode (s : String) : List Nat :=
  (s.data.map utf8EncodeChar).flatten

/-- One byte of `quote` output: kept verbatim when in `_ALWAYS_SAFE` or in
the caller-supplied `safe` set, otherwise escaped as `%XX` (uppercase). -/
def quoteByte (safe : List Char) (b : Nat) : String :=
  if alwaysSafeByte b || (safe.map Char.toNat).contains b then
    String.singleton (Char.ofNat b)
  else
    String.singleton '%' ++ String.singleton (hexUpper (b / 16)) ++
      String.singleton (hexUpper (b % 16))

/-- `''.join`: concatenate a list of strings. -/
def concatAll : List String → String
  | [] => ""
  | s :: rest => s ++ concatAll rest

/-- `urllib.parse.quote(s, safe)`: UTF-8 encode, then escape each byte
outside `_ALWAYS_SAFE ∪ safe`. The module always calls it with `safe=''`,
i.e. `pyQuote [] s`. -/
def pyQuote (safe : List Char) (s : String) : String :=
  concatAll ((utf8Encode s).map (quoteByte safe))

/-- `urllib.parse.quote_plus(s)` (with its default `safe=''`): if `s`
contains a space, quote with space kept safe and then replace each space
by `+`; otherwise plain `quote(s, safe='')`. -/
def pyQuotePlus (s : String) : String :=
  if s.data.contains ' ' then
    String.mk ((pyQuote [' '] s).data.map (fun c => if c == ' ' then '+' else c))
  else
    pyQuote [] s

/-! ## Percent-decoding and UTF-8 decoding (for the round-trip claim) -/

/-- Value of one hex digit character (either case), if any. -/
def hexVal (c : Char) : Option Nat :=
  if '0' ≤ c && c ≤ '9' then some (c.toNat - 48)
  else if 'A' ≤ c && c ≤ 'F' then some (c.toNat - 55)
  else if 'a' ≤ c && c ≤ 'f' then some (c.toNat - 87)
  else none

/-- Standard percent-decoding to bytes: `%XX` becomes the byte `XX`, any
other character stands for its own code point. -/
def percentDecode : List Char → Option (List Nat)
  | [] => some []
  | c :: rest =>
    if c == '%' then
      match rest with
      | h :: l :: rest2 =>
        match hexVal h, hexVal l, percentDecode rest2 with
        | some hv, some lv, some tail => some ((16 * hv + lv) :: tail)
        | _, _, _ => none
      | _ => none
    else
      match percentDecode rest with
      | some tail => some (c.toNat :: tail)
      | none => none

/-- A scalar value as a `Char`, rejecting surrogates and out-of-range
code points. -/
def mkChar (n : Nat) : Option Char :=
  if n < 55296 ∨ (57343 < n ∧ n < 1114112) then some (Char.ofNat n) else none

/-- Is `b` a UTF-8 continuation byte (`10xxxxxx`)? -/
def contByte (b : Nat) : Bool := 128 ≤ b && b < 192

/-- Decode one UTF-8 scalar from a lead byte and the following bytes:
the character and how many continuation bytes were consumed. -/
def utf8DecodeOne (b : Nat) (bs : List Nat) : Option (Char × Nat) :=
  if b < 128 then
    (mkChar b).map (fun c => (c, 0))
  else if b < 224 then
    match bs with
    | b1 :: _ =>
      if 192 ≤ b && contByte b1 then
        (mkChar ((b - 192) * 64 + (b1 - 128))).map (fun c => (c, 1))
      else none
    | _ => none
  else if b < 240 then
    match bs with
    | b1 :: b2 :: _ =>
      if contByte b1 && contByte b2 then
        (mkChar (((b - 224) * 64 + (b1 - 128)) * 64 + (b2 - 128))).map (fun c => (c, 2))
      else none
    | _ => none
  else
    match bs with
    | b1 :: b2 :: b3 :: _ =>
      if b < 248 && (contByte b1 && contByte b2 && contByte b3) then
        (mkChar ((((b - 240) * 64 + (b1 - 128)) * 64 + (b2 - 128)) * 64
          + (b3 - 128))).map (fun c => (c, 3))
      else none
    | _ => none

/-- UTF-8 decoding of a byte list back to characters. -/
def utf8Decode : List Nat → Option (List Char)
  | [] => some []
  | b :: bs =>
    match utf8DecodeOne b bs with
    | some (c, k) => (utf8Decode (bs.drop k)).map (c :: ·)
    | none => none
termination_by l => l.length
decreasing_by simp [List.length_drop]; omega

/-- Percent-decode to bytes, then UTF-8 decode back to a string
(the composite inverse of `pyQuote []`). -/
def pyUnquote (s : String) : Option String :=
  match percentDecode s.data with
  | some bs =>
    match utf8Decode bs with
    | some cs => some (String.mk cs)
    | none => none
  | none => none

/-! ## SHA-256, HMAC-SHA256, base64 (hashlib / hmac / base64.b64encode) -/

/-- Truncate to a 32-bit word. -/
def w32 (n : Nat) : Nat := n % 4294967296

/-- Right-rotate a 32-bit word by `k`. -/
def rotr (k x : Nat) : Nat := (x >>> k) ||| w32 (x <<< (32 - k))

/-- `l.getD i 0`, the word at index `i`. -/
def nth (l : List Nat) (i : Nat) : Nat := l.getD i 0

/-- The 64 SHA-256 round constants (FIPS 180-4), written in decimal. -/
def shaK : List Nat :=
  [1116352408, 1899447441, 3049323471, 3921009573, 961987163, 1508970993,
   2453635748, 2870763221, 3624381080, 310598401, 607225278, 1426881987,
   1925078388, 2162078206, 2614888103, 3248222580, 3835390401, 4022224774,
   264347078, 604807628, 770255983, 1249150122, 1555081692, 1996064986,
   2554220882, 2821834349, 2952996808, 3210313671, 3336571891, 3584528711,
   113926993, 338241895, 666307205, 773529912, 1294757372, 1396182291,
   1695183700, 1986661051, 2177026350, 2456956037, 2730485921, 2820302411,
   3259730800, 3345764771, 3516065817, 3600352804, 4094571909, 275423344,
   430227734, 506948616, 659060556, 883997877, 958139571, 1322822218,
   1537002063, 1747873779, 1955562222, 2024104815, 2227730452, 2361852424,
   2428436474, 2756734187, 3204031479, 3329325298]

/-- The 8 initial SHA-256 hash words (FIPS 180-4), written in decimal. -/
def shaH0 : List Nat :=
  [1779033703, 3144134277, 1013904242, 2773480762,
   1359893119, 2600822924, 528734635, 1541459225]

/-- Next message-schedule word from the current schedule. -/
def newWord (ws : List Nat) : Nat :=
  let i := ws.length
  let x15 := nth ws (i - 15)
  let x2 := nth ws (i - 2)
  let s0 := rotr 7 x15 ^^^ rotr 18 x15 ^^^ (x15 >>> 3)
  let s1 := rotr 17 x2 ^^^ rotr 19 x2 ^^^ (x2 >>> 10)
  w32 (nth ws (i - 16) + s0 + nth ws (i - 7) + s1)

/-- Extend the message schedule by `n` words. -/
def extendLoop (ws : List Nat) : Nat → List Nat
  | 0 => ws
  | n + 1 => extendLoop (ws ++ [newWord ws]) n

/-- The 64-word message schedule of one 16-word block. -/
def shaSchedule (block : List Nat) : List Nat := extendLoop block 48

/-- The eight SHA-256 working registers. -/
structure ShaState where
  a : Nat
  b : Nat
  c : Nat
  d : Nat
  e : Nat
  f : Nat
  g : Nat
  h : Nat

/-- One SHA-256 compression round with constant `k` and schedule word `w`. -/
def compressStep (st : ShaState) (k w : Nat) : ShaState :=
  let s1 := rotr 6 st.e ^^^ rotr 11 st.e ^^^ rotr 25 st.e
  let ch := (st.e &&& st.f) ^^^ ((st.e ^^^ 0xffffffff) &&& st.g)
  let t1 := w32 (st.h + s1 + ch + k + w)
  let s0 := rotr 2 st.a ^^^ rotr 13 st.a ^^^ rotr 22 st.a
  let mj := (st.a &&& st.b) ^^^ (st.a &&& st.c) ^^^ (st.b &&& st.c)
  let t2 := w32 (s0 + mj)
  ⟨w32 (t1 + t2), st.a, st.b, st.c, w32 (st.d + t1), st.e, st.f, st.g⟩

/-- Compress one 16-word block into the running hash words. -/
def compressBlock (hs block : List Nat) : List Nat :=
  let ws := shaSchedule block
  let st0 : ShaState :=
    ⟨nth hs 0, nth hs 1, nth hs 2, nth hs 3, nth hs 4, nth hs 5, nth hs 6, nth hs 7⟩
  let st := (shaK.zip ws).foldl (fun st kw => compressStep st kw.1 kw.2) st0
  [w32 (nth hs 0 + st.a), w32 (nth hs 1 + st.b), w32 (nth hs 2 + st.c),
   w32 (nth hs 3 + st.d), w32 (nth hs 4 + st.e), w32 (nth hs 5 + st.f),
   w32 (nth hs 6 + st.g), w32 (nth hs 7 + st.h)]

/-- Group bytes (big-endian, length a multiple of 4) into 32-bit words. -/
def toWords : List Nat → List Nat
  | b0 :: b1 :: b2 :: b3 :: rest =>
    (((b0 * 256 + b1) * 256 + b2) * 256 + b3) :: toWords rest
  | _ => []

/-- A number as 8 big-endian bytes (the SHA-256 length field). -/
def be8 (n : Nat) : List Nat :=
  [(n >>> 56) % 256, (n >>> 48) % 256, (n >>> 40) % 256, (n >>> 32) % 256,
   (n >>> 24) % 256, (n >>> 16) % 256, (n >>> 8) % 256, n % 256]

/-- A 32-bit word as 4 big-endian bytes. -/
def be4 (n : Nat) : List Nat :=
  [(n >>> 24) % 256, (n >>> 16) % 256, (n >>> 8) % 256, n % 256]

/-- SHA-256 padding: `0x80`, zeros to 56 mod 64, then the 64-bit bit length. -/
def padMsg (msg : List Nat) : List Nat :=
  let padLen := (64 + 55 - msg.length % 64) % 64
  msg ++ [128] ++ List.replicate padLen 0 ++ be8 (8 * msg.length)

/-- Fold `compressBlock` over successive 64-byte chunks. -/
def shaBlocks (hs : List Nat) : List Nat → List Nat
  | [] => hs
  | b :: bs =>
    shaBlocks (compressBlock hs (toWords ((b :: bs).take 64))) ((b :: bs).drop 64)
termination_by l => l.length
decreasing_by simp [List.length_drop]; omega

/-- SHA-256 of a byte list, as its 32 digest bytes. -/
def sha256 (msg : List Nat) : List Nat :=
  ((shaBlocks shaH0 (padMsg msg)).map be4).flatten

/-- HMAC-SHA256 (`hmac.new(key, msg, hashlib.sha256).digest()`), block
size 64. -/
def hmacSha256 (key msg : List Nat) : List Nat :=
  let k0 := if 64 < key.length then sha256 key else key
  let k1 := k0 ++ List.replicate (64 - k0.length) 0
  sha256 ((k1.map (fun b => b ^^^ 92)) ++ sha256 ((k1.map (fun b => b ^^^ 54)) ++ msg))

/-- The base64 alphabet. -/
def b64Char (n : Nat) : Char :=
  "ABCDEFGHIJKLMNOPQRSTUVWXYZabcdefghijklmnopqrstuvwxyz0123456789+/".data.getD n 'A'

/-- `base64.b64encode`, with `=` padding. -/
def base64Encode : List Nat → String
  | [] => ""
  | [b0] =>
    String.mk [b64Char (b0 / 4), b64Char ((b0 % 4) * 16), '=', '=']
  | [b0, b1] =>
    let n := b0 * 256 + b1
    String.mk [b64Char (n / 1024), b64Char ((n / 16) % 64), b64Char ((n % 16) * 4), '=']
  | b0 :: b1 :: b2 :: rest =>
    let n := (b0 * 256 + b1) * 256 + b2
    String.mk [b64Char (n / 262144), b64Char ((n / 4096) % 64),
      b64Char ((n / 64) % 64), b64Char (n % 64)] ++ base64Encode rest

/-- The characters `str.strip()` removes. -/
def isPySpace (c : Char) : Bool :=
  c == ' ' || c == '\t' || c == '\n' || c == '\x0b' || c == '\x0c' || c == '\r'

/-- `str.strip()`: drop leading and trailing whitespace. -/
def pyStrip (s : String) : String :=
  String.mk (((s.data.dropWhile isPySpace).reverse.dropWhile isPySpace).reverse)

/-! ## Timestamp (strftime("%Y-%m-%dT%H:%M:%S.000Z", gmtime(t))) -/

/-- Zero-pad to two digits (strftime `%m`, `%d`, `%H`, `%M`, `%S`). -/
def pad2 (n : Nat) : String :=
  if n < 10 then "0" ++ toString n else toString n

/-- Zero-pad to four digits (strftime `%Y`). -/
def pad4 (n : Nat) : String :=
  if n < 10 then "000" ++ toString n
  else if n < 100 then "00" ++ toString n
  else if n < 1000 then "0" ++ toString n
  else toString n

/-- Proleptic-Gregorian civil date (year, month, day) from days since the
Unix epoch. -/
def civilFromDays (days : Nat) : Nat × Nat × Nat :=
  let z := days + 719468
  let era := z / 146097
  let doe := z % 146097
  let yoe := (doe - doe / 1460 + doe / 36524 - doe / 146096) / 365
  let y := yoe + era * 400
  let doy := doe - (365 * yoe + yoe / 4 - yoe / 100)
  let mp := (5 * doy + 2) / 153
  let d := doy - (153 * mp + 2) / 5 + 1
  let m := if mp < 10 then mp + 3 else mp - 9
  (if m ≤ 2 then y + 1 else y, m, d)

/-- `strftime("%Y-%m-%dT%H:%M:%S.000Z", gmtime(t))`: UTC timestamp with the
milliseconds hard-coded as `.000`. -/
def formatTimestamp (t : Nat) : String :=
  let secs := t % 86400
  let ymd := civilFromDays (t / 86400)
  pad4 ymd.1 ++ "-" ++ pad2 ymd.2.1 ++ "-" ++ pad2 ymd.2.2 ++ "T" ++
    pad2 (secs / 3600) ++ ":" ++ pad2 ((secs % 3600) / 60) ++ ":" ++
    pad2 (secs % 60) ++ ".000Z"

/-! ## String helpers used by the event handlers -/

/-- `str.lower()`, modelled on the ASCII range. -/
def pyLower (s : String) : String := String.mk (s.data.map Char.toLower)

/-- Does `needle` occur at the head of `hay`? -/
def startsList : List Char → List Char → Bool
  | [], _ => true
  | _ :: _, [] => false
  | a :: as, b :: bs => a == b && startsList as bs

/-- Python's substring test `needle in hay`, on character lists. -/
def pyInChars : List Char → List Char → Bool
  | needle, [] => startsList needle []
  | needle, c :: t => startsList needle (c :: t) || pyInChars needle t

/-- Python's substring test `needle in hay` on strings. -/
def pyIn (needle hay : String) : Bool := pyInChars needle.data hay.data

/-! ## The module's configuration and the policy layer -/

/-- The module's loaded configuration (`self.loaded_nv`), restricted to the
keys the event handlers read. -/
structure Config where
  monitor_channels : List String
  trigger_pms : Bool
  trigger_words : List String
  endpoint : String
  sns_topic : String
  aws_access_key : String
  aws_secret_key : String
  always_send_notifications : Bool
  auto_notifications_on_dc : Bool
deriving Repr, DecidableEq

/-- The arguments a handler passes to `self._notify` when it fires. -/
structure NotificationRequest where
  who : String
  message : String
  force : Bool
deriving Repr, DecidableEq

/-- The trigger-word scan of `OnChanMsg`: first match wins. -/
def trigLoop (msg : String) : List String → Bool
  | [] => false
  | t :: ts => if pyIn (pyLower t) (pyLower msg) then true else trigLoop msg ts

/-- `OnChanMsg` (lines 131-146): the `_notify` call it makes, if any. -/
def onChanMsgEval (cfg : Config) (nick channel message : String) :
    Option NotificationRequest :=
  if !(cfg.monitor_channels.contains (pyLower channel)) then none
  else if trigLoop message cfg.trigger_words then
    some ⟨channel ++ " (" ++ nick ++ "@)", message, false⟩
  else none

/-- `OnPrivMsg` (lines 125-129): the `_notify` call it makes, if any. -/
def onPrivMsgEval (cfg : Config) (nick message : String) :
    Option NotificationRequest :=
  if cfg.trigger_pms then some ⟨nick ++ "@", message, false⟩ else none

/-- `OnClientDisconnect` (lines 121-123): the `_notify` call it makes,
if any. -/
def onClientDisconnectEval (cfg : Config) : Option NotificationRequest :=
  if cfg.auto_notifications_on_dc then
    some ⟨"HallMonitor", "Detected client disconnect. Enabling notifications.", true⟩
  else none

/-! ## The signed publisher (`_notify`, lines 157-206) -/

/-- The `params` dict literal of `_notify` (line 172), in insertion order. -/
def snsParams (topic msg ts ak : String) : List (String × String) :=
  [("TopicArn", topic), ("Message", msg), ("Timestamp", ts),
   ("AWSAccessKeyId", ak), ("Action", "Publish"), ("SignatureVersion", "2"),
   ("SignatureMethod", "HmacSHA256")]

/-- Python string `≤`: lexicographic by code point. -/
def strLeChars : List Char → List Char → Bool
  | [], _ => true
  | _ :: _, [] => false
  | a :: as, b :: bs =>
    if a.toNat < b.toNat then true
    else if b.toNat < a.toNat then false
    else strLeChars as bs

/-- Python string `≤` on strings. -/
def strLe (a b : String) : Bool := strLeChars a.data b.data

/-- Insert into a `strLe`-sorted list. -/
def insertSorted (x : String) : List String → List String
  | [] => [x]
  | y :: ys => if strLe x y then x :: y :: ys else y :: insertSorted x ys

/-- Python's `sorted` on strings (insertion sort, code-point order). -/
def sortStrings : List String → List String
  | [] => []
  | x :: xs => insertSorted x (sortStrings xs)

/-- `params.get(k)` on the dict, as first-match association lookup. -/
def dictGet (d : List (String × String)) (k : String) : String :=
  match d with
  | [] => ""
  | (k2, v) :: rest => if k2 == k then v else dictGet rest k

/-- Python `s[:-1]`: drop the final character. -/
def pyDropLast (s : String) : String := String.mk s.data.dropLast

/-- Lines 182-191: sort the keys, percent-encode each key and value with
`quote(-, safe='')`, accumulate `"k=v&"`, and drop the trailing `&`. -/
def paramsHttp (params : List (String × String)) : String :=
  let keys := sortStrings (params.map Prod.fst)
  let vals := keys.map (dictGet params)
  pyDropLast ((keys.zip vals).foldl
    (fun acc kv => acc ++ pyQuote [] kv.1 ++ "=" ++ pyQuote [] kv.2 ++ "&") "")

/-- `'\n'.join`, `'&'.join`, etc. -/
def joinSep (sep : Char) : List String → String
  | [] => ""
  | [x] => x
  | x :: xs => x ++ String.singleton sep ++ joinSep sep xs

/-- Are all characters of `s` ASCII? (`bytes(s, 'ascii')` succeeds.) -/
def allAscii (s : String) : Bool := s.data.all (fun c => c.toNat < 128)

/-- The code points of an ASCII string as bytes. -/
def asciiBytes (s : String) : List Nat := s.data.map Char.toNat

/-- `bytes(s, 'ascii')`: the byte list, or a raised `UnicodeEncodeError`
for non-ASCII input. -/
def pyBytesAscii (s : String) : Except String (List Nat) :=
  if allAscii s then Except.ok (asciiBytes s) else Except.error "UnicodeEncodeError"

/-- Lines 194-197: base64 of the HMAC-SHA256 of the string-to-sign, keyed
with the secret, then `strip()`ped.  Raises (as `Except.error`) when either
string is not ASCII-encodable. -/
def signatureOf (secret sts : String) : Except String String :=
  match pyBytesAscii secret, pyBytesAscii sts with
  | Except.ok kb, Except.ok mb =>
    Except.ok (pyStrip (base64Encode (hmacSha256 kb mb)))
  | Except.error e, _ => Except.error e
  | _, Except.error e => Except.error e

deriving instance DecidableEq for Except

/-- Observable outcome of one `_notify` call.  `dispatched` records that
both gate checks passed and control reached the publisher body (line 170);
`calls` records the URLs passed to `urlopen`; `logs` records `PutModule`
output; `result` is `Except.error` when an uncaught Python exception
escapes `_notify`. -/
structure NotifyOut where
  dispatched : Bool
  result : Except String Unit
  calls : List String
  logs : List String
deriving Repr, DecidableEq

/-- Lines 170-206: build the canonical query, the string-to-sign, the
signature and the URL, then `urlopen` it, swallowing any transport failure
(the `try/except` wraps only the `urlopen` call). -/
def buildAndSend (cfg : Config) (who message : String) (now : Nat)
    (http : String → Except String (List Nat)) : NotifyOut :=
  let msg := who ++ " - " ++ message
  let ph := paramsHttp (snsParams cfg.sns_topic msg (formatTimestamp now) cfg.aws_access_key)
  let sts := joinSep '\n' ["GET", cfg.endpoint, "/", ph]
  match signatureOf cfg.aws_secret_key sts with
  | Except.error e => ⟨true, Except.error e, [], []⟩
  | Except.ok sig =>
    let url := "http://" ++ cfg.endpoint ++ "/?" ++ ph ++ "&Signature=" ++ pyQuotePlus sig
    match http url with
    | Except.ok _ => ⟨true, Except.ok (), [url], []⟩
    | Except.error e =>
      ⟨true, Except.ok (), [url], ["[DEBUG] URL: " ++ url, "[DEBUG] Exception: " ++ e]⟩

/-- `_notify` (lines 157-206): the gate (`always_send_notifications`, or
`auto_notifications_on_dc` with no client attached, or `force`), then the
credential-presence check, then the publisher. -/
def notifyModel (cfg : Config) (attached : Bool) (who message : String)
    (force : Bool) (now : Nat) (http : String → Except String (List Nat)) :
    NotifyOut :=
  let notify := if cfg.auto_notifications_on_dc && !attached then true
    else cfg.always_send_notifications
  if !notify && !force then ⟨false, Except.ok (), [], []⟩
  else if cfg.aws_access_key.length == 0 || cfg.aws_secret_key.length == 0 ||
      cfg.sns_topic.length == 0 then ⟨false, Except.ok (), [], []⟩
  else buildAndSend cfg who message now http

/-! ## Spec-side definitions (from the spec's words, for the refinement
claims C1 and C2) -/

/-- Modelled from the spec: the unreserved set "exactly `[A-Za-z0-9]` plus
`-_.~`"; every other byte is percent-escaped. -/
def specUnreserved (b : Nat) : Bool :=
  (48 ≤ b && b ≤ 57) || (65 ≤ b && b ≤ 90) || (97 ≤ b && b ≤ 122) ||
    b == 45 || b == 95 || b == 46 || b == 126

/-- Modelled from the spec: the seven-entry parameter mapping with its
names already in ascending byte order. -/
def specSortedPairs (topic msg ts ak : String) : List (String × String) :=
  [("AWSAccessKeyId", ak), ("Action", "Publish"), ("Message", msg),
   ("SignatureMethod", "HmacSHA256"), ("SignatureVersion", "2"),
   ("Timestamp", ts), ("TopicArn", topic)]

/-- Modelled from the spec: percent-encode every key and value, join each
pair as `key=value`, join the pairs with `&` and no trailing separator. -/
def specCanonicalQuery (topic msg ts ak : String) : String :=
  joinSep '&' ((specSortedPairs topic msg ts ak).map
    (fun kv => pyQuote [] kv.1 ++ "=" ++ pyQuote [] kv.2))

/-- Is a list of strings ascending in byte/code-point order? -/
def chainLe : List String → Bool
  | [] => true
  | [_] => true
  | a :: b :: rest => strLe a b && chainLe (b :: rest)

/-- Parse one `key=value` pair of a query string and percent-decode both
sides (standard decoding, for the round-trip claim). -/
def splitKV (part : List Char) : Option (String × String) :=
  match part.splitOn '=' with
  | [k, v] =>
    match pyUnquote (String.mk k), pyUnquote (String.mk v) with
    | some k2, some v2 => some (k2, v2)
    | _, _ => none
  | _ => none

/-- Split a query string at `&`, then parse and decode every
`key=value` pair. -/
def parseQuery (q : String) : Option (List (String × String)) :=
  (q.data.splitOn '&').mapM splitKV

/-- `"k1=v1&...&kn=vn&"`: the accumulated pair encodings of the
`params_http` loop, before the final `[:-1]`. -/
def buildAmp : List (String × String) → String
  | [] => ""
  | kv :: rest => pyQuote [] kv.1 ++ "=" ++ pyQuote [] kv.2 ++ "&" ++ buildAmp rest

/-! ## Helper lemmas -/

theorem length_beq_zero (s : String) : (s.length == 0) = decide (s = "") := by
  rcases s with ⟨data⟩
  cases data <;> simp [String.length, String.ext_iff]

theorem contains_iff (l : List String) (s : String) : l.contains s = true ↔ s ∈ l := by
  show l.elem s = true ↔ s ∈ l
  exact List.elem_iff

theorem trigLoop_eq_any (msg : String) (ts : List String) :
    trigLoop msg ts = ts.any (fun t => pyIn (pyLower t) (pyLower msg)) := by
  induction ts with
  | nil => rfl
  | cons t ts ih =>
    cases h : pyIn (pyLower t) (pyLower msg) <;> simp [trigLoop, h, ih]

theorem any_iff_exists (ts : List String) (msg : String) :
    ts.any (fun t => pyIn (pyLower t) (pyLower msg)) = true ↔
      ∃ t ∈ ts, pyIn (pyLower t) (pyLower msg) = true := by
  simp [List.any_eq_true]

theorem pyIn_empty (hay : String) : pyIn "" hay = true := by
  show pyInChars [] hay.data = true
  induction hay.data with
  | nil => rfl
  | cons c t ih => simp [pyInChars, startsList]

theorem buildAndSend_dispatched (cfg : Config) (who message : String) (now : Nat)
    (http : String → Except String (List Nat)) :
    (buildAndSend cfg who message now http).dispatched = true := by
  unfold buildAndSend
  dsimp only
  split
  · rfl
  · split <;> rfl

/-- `_notify` in branch normal form: the gate condition, the credential
check, then the publisher. -/
theorem notifyModel_eq (cfg : Config) (attached : Bool) (who message : String)
    (force : Bool) (now : Nat) (http : String → Except String (List Nat)) :
    notifyModel cfg attached who message force now http =
      if (cfg.always_send_notifications ||
          (cfg.auto_notifications_on_dc && !attached)) || force then
        if cfg.aws_access_key = "" ∨ cfg.aws_secret_key = "" ∨ cfg.sns_topic = "" then
          ⟨false, Except.ok (), [], []⟩
        else buildAndSend cfg who message now http
      else ⟨false, Except.ok (), [], []⟩ := by
  unfold notifyModel
  cases hD : cfg.auto_notifications_on_dc <;> cases hAt : attached <;>
    cases hA : cfg.always_send_notifications <;> cases hF : force <;>
    simp [length_beq_zero, or_assoc]

theorem foldl_quote_amp (ps : List (String × String)) (acc : String) :
    ps.foldl (fun acc kv => acc ++ pyQuote [] kv.1 ++ "=" ++ pyQuote [] kv.2 ++ "&") acc
      = acc ++ buildAmp ps := by
  induction ps generalizing acc with
  | nil => simp [buildAmp, String.append_empty]
  | cons kv rest ih =>
    rw [List.foldl_cons, ih]
    simp [buildAmp, String.append_assoc]

theorem buildAmp_cons_data (kv : String × String) (rest : List (String × String)) :
    (buildAmp (kv :: rest)).data =
      ((pyQuote [] kv.1).data ++ ['='] ++ (pyQuote [] kv.2).data ++ ['&']) ++
        (buildAmp rest).data := by
  have h1 : "=".data = ['='] := rfl
  have h2 : "&".data = ['&'] := rfl
  simp [buildAmp, String.data_append, h1, h2]

theorem buildAmp_ne_nil (kv : String × String) (rest : List (String × String)) :
    (buildAmp (kv :: rest)).data ≠ [] := by
  rw [buildAmp_cons_data]
  simp

theorem dropLast_buildAmp (ps : List (String × String)) (h : ps ≠ []) :
    pyDropLast (buildAmp ps) =
      joinSep '&' (ps.map (fun kv => pyQuote [] kv.1 ++ "=" ++ pyQuote [] kv.2)) := by
  induction ps with
  | nil => exact absurd rfl h
  | cons kv rest ih =>
    apply String.ext
    show (buildAmp (kv :: rest)).data.dropLast = _
    rw [buildAmp_cons_data]
    cases rest with
    | nil =>
      rw [show (buildAmp ([] : List (String × String))).data = [] from rfl,
        List.append_nil, List.dropLast_concat]
      have h1 : "=".data = ['='] := rfl
      simp [joinSep, String.data_append, h1]
    | cons kv2 rest2 =>
      rw [List.dropLast_append_of_ne_nil _ (buildAmp_ne_nil _ _)]
      have ihd := congrArg String.data (ih (by simp))
      rw [show (pyDropLast (buildAmp (kv2 :: rest2))).data =
        (buildAmp (kv2 :: rest2)).data.dropLast from rfl] at ihd
      rw [ihd]
      have h1 : "=".data = ['='] := rfl
      simp [joinSep, String.data_append, String.data_singleton, h1]

theorem paramsHttp_eq (topic msg ts ak : String) :
    paramsHttp (snsParams topic msg ts ak) = specCanonicalQuery topic msg ts ak := by
  have h0 : paramsHttp (snsParams topic msg ts ak) =
      pyDropLast ((specSortedPairs topic msg ts ak).foldl
        (fun acc kv => acc ++ pyQuote [] kv.1 ++ "=" ++ pyQuote [] kv.2 ++ "&") "") := rfl
  rw [h0, foldl_quote_amp, String.empty_append, specCanonicalQuery]
  exact dropLast_buildAmp _ (by simp [specSortedPairs])

theorem hexUpper_mem (n : Nat) : hexUpper n ∈ ('0' :: "0123456789ABCDEF".data) := by
  unfold hexUpper
  rcases h : "0123456789ABCDEF".data.get? n with _ | c
  · have h2 : "0123456789ABCDEF".data[n]? = none := by
      rw [← List.get?_eq_getElem?]; exact h
    simp [List.getD, h2]
  · have h2 : "0123456789ABCDEF".data[n]? = some c := by
      rw [← List.get?_eq_getElem?]; exact h
    have hm : c ∈ "0123456789ABCDEF".data := List.getElem?_mem h2
    simp only [List.getD, h, Option.getD_some]
    exact List.mem_cons_of_mem _ hm

theorem alwaysSafeByte_bounds {b : Nat} (h : alwaysSafeByte b = true) :
    b < 128 ∧ b ≠ 37 ∧ b ≠ 38 ∧ b ≠ 61 := by
  simp only [alwaysSafeByte, Bool.or_eq_true, Bool.and_eq_true, decide_eq_true_eq,
    beq_iff_eq] at h
  omega

theorem toNat_ofNat_lt {b : Nat} (h : b < 55296) : (Char.ofNat b).toNat = b := by
  simp [Char.ofNat, Nat.isValidChar, h, Char.toNat, Char.ofNatAux, UInt32.toNat,
    BitVec.toNat_ofNatLt]

theorem quoteByte_chars {b : Nat} {c : Char} (hc : c ∈ (quoteByte [] b).data) :
    c.toNat < 128 ∧ c.toNat ≠ 38 ∧ c.toNat ≠ 61 := by
  have hx : ∀ x ∈ ('0' :: "0123456789ABCDEF".data),
      Char.toNat x < 128 ∧ Char.toNat x ≠ 38 ∧ Char.toNat x ≠ 61 := by decide
  unfold quoteByte at hc
  by_cases hs : alwaysSafeByte b = true
  · rw [if_pos (by simp [hs])] at hc
    obtain ⟨hb1, hb0, hb2, hb3⟩ := alwaysSafeByte_bounds hs
    rw [String.data_singleton, List.mem_singleton] at hc
    subst hc
    rw [toNat_ofNat_lt (by omega)]
    omega
  · rw [if_neg (by simp [hs])] at hc
    simp only [String.data_append, String.data_singleton, List.cons_append,
      List.nil_append, List.mem_cons] at hc
    rcases hc with hc | hc | hc | hc
    · subst hc; decide
    · subst hc; exact hx _ (hexUpper_mem _)
    · subst hc; exact hx _ (hexUpper_mem _)
    · simp at hc

theorem concatAll_data (l : List String) :
    (concatAll l).data = (l.map String.data).flatten := by
  induction l with
  | nil => rfl
  | cons x xs ih => simp [concatAll, String.data_append, ih]

theorem pyQuote_chars {s : String} {c : Char} (hc : c ∈ (pyQuote [] s).data) :
    c.toNat < 128 ∧ c.toNat ≠ 38 ∧ c.toNat ≠ 61 := by
  rw [pyQuote, concatAll_data] at hc
  rw [List.mem_flatten] at hc
  obtain ⟨piece, hp, hcp⟩ := hc
  rw [List.mem_map] at hp
  obtain ⟨t, ht, rfl⟩ := hp
  rw [List.mem_map] at ht
  obtain ⟨b, hb, rfl⟩ := ht
  exact quoteByte_chars hcp

theorem allAscii_iff (s : String) :
    allAscii s = true ↔ ∀ c ∈ s.data, c.toNat < 128 := by
  simp [allAscii, List.all_eq_true]

theorem allAscii_pyQuote (s : String) : allAscii (pyQuote [] s) = true :=
  (allAscii_iff _).mpr fun _ hc => (pyQuote_chars hc).1

theorem allAscii_append (a b : String) :
    allAscii (a ++ b) = (allAscii a && allAscii b) := by
  simp [allAscii, String.data_append, List.all_append]

theorem allAscii_joinSep (sep : Char) (hsep : sep.toNat < 128) (l : List String)
    (hl : ∀ s ∈ l, allAscii s = true) : allAscii (joinSep sep l) = true := by
  induction l with
  | nil => rfl
  | cons x xs ih =>
    cases xs with
    | nil => exact hl x (by simp)
    | cons y ys =>
      have hx := hl x (by simp)
      have hrest : allAscii (joinSep sep (y :: ys)) = true :=
        ih fun s hs => hl s (List.mem_cons_of_mem _ hs)
      have hsing : allAscii (String.singleton sep) = true := by
        simp [allAscii, String.data_singleton, hsep]
      show allAscii (x ++ String.singleton sep ++ joinSep sep (y :: ys)) = true
      simp [allAscii_append, hx, hsing, hrest]

theorem allAscii_specCanonicalQuery (topic msg ts ak : String) :
    allAscii (specCanonicalQuery topic msg ts ak) = true := by
  apply allAscii_joinSep _ (by decide)
  intro s hs
  simp only [specSortedPairs, List.map_cons, List.map_nil, List.mem_cons,
    List.not_mem_nil, or_false] at hs
  have heq : allAscii "=" = true := by decide
  rcases hs with h | h | h | h | h | h | h <;> subst h <;>
    simp [allAscii_append, allAscii_pyQuote, heq]

theorem joinSep4 (a b c d : String) :
    joinSep '\n' [a, b, c, d] = a ++ "\n" ++ b ++ "\n" ++ c ++ "\n" ++ d := by
  apply String.ext
  have h1 : "\n".data = ['\n'] := rfl
  show (a ++ String.singleton '\n' ++ (b ++ String.singleton '\n' ++
    (c ++ String.singleton '\n' ++ d))).data = _
  simp [String.data_append, String.data_singleton, h1]

theorem signatureOf_ok {secret sts : String} (hsk : allAscii secret = true)
    (hsts : allAscii sts = true) :
    signatureOf secret sts =
      Except.ok (pyStrip (base64Encode (hmacSha256 (asciiBytes secret) (asciiBytes sts)))) := by
  unfold signatureOf pyBytesAscii
  rw [if_pos hsk, if_pos hsts]

/-- Under ASCII-encodable endpoint and secret, the publisher body reduces
to the single `urlopen` call on the fully built signed URL. -/
theorem buildAndSend_ok (cfg : Config) (who message : String) (now : Nat)
    (http : String → Except String (List Nat))
    (hep : allAscii cfg.endpoint = true) (hsk : allAscii cfg.aws_secret_key = true) :
    buildAndSend cfg who message now http =
      (let ph := paramsHttp (snsParams cfg.sns_topic (who ++ " - " ++ message)
        (formatTimestamp now) cfg.aws_access_key)
      let sts := joinSep '\n' ["GET", cfg.endpoint, "/", ph]
      let sig := pyStrip (base64Encode (hmacSha256 (asciiBytes cfg.aws_secret_key)
        (asciiBytes sts)))
      let url := "http://" ++ cfg.endpoint ++ "/?" ++ ph ++ "&Signature=" ++ pyQuotePlus sig
      match http url with
      | Except.ok _ => ⟨true, Except.ok (), [url], []⟩
      | Except.error e =>
        ⟨true, Except.ok (), [url],
          ["[DEBUG] URL: " ++ url, "[DEBUG] Exception: " ++ e]⟩) := by
  have hph : allAscii (paramsHttp (snsParams cfg.sns_topic (who ++ " - " ++ message)
      (formatTimestamp now) cfg.aws_access_key)) = true := by
    rw [paramsHttp_eq]
    exact allAscii_specCanonicalQuery _ _ _ _
  have hsts : allAscii (joinSep '\n' ["GET", cfg.endpoint, "/",
      paramsHttp (snsParams cfg.sns_topic (who ++ " - " ++ message)
        (formatTimestamp now) cfg.aws_access_key)]) = true := by
    apply allAscii_joinSep _ (by decide)
    intro s hs
    simp only [List.mem_cons, List.not_mem_nil, or_false] at hs
    rcases hs with h | h | h | h <;> subst h
    · decide
    · exact hep
    · decide
    · exact hph
  unfold buildAndSend
  dsimp only
  rw [signatureOf_ok hsk hsts]

theorem hexVal_hexUpper {n : Nat} (h : n < 16) : hexVal (hexUpper n) = some n := by
  interval_cases n <;> decide

theorem quoteByte_data_safe {b : Nat} (hs : alwaysSafeByte b = true) :
    (quoteByte [] b).data = [Char.ofNat b] := by
  simp [quoteByte, hs, String.data_singleton]

theorem quoteByte_data_escaped {b : Nat} (hs : ¬alwaysSafeByte b = true) :
    (quoteByte [] b).data = ['%', hexUpper (b / 16), hexUpper (b % 16)] := by
  simp [quoteByte, hs, String.data_append, String.data_singleton]

theorem percentDecode_cons (c : Char) (rest : List Char) :
    percentDecode (c :: rest) =
      if c == '%' then
        match rest with
        | h :: l :: rest2 =>
          match hexVal h, hexVal l, percentDecode rest2 with
          | some hv, some lv, some tail => some ((16 * hv + lv) :: tail)
          | _, _, _ => none
        | _ => none
      else
        match percentDecode rest with
        | some tail => some (c.toNat :: tail)
        | none => none := by
  rw [percentDecode.eq_def]

theorem percentDecode_quoteByte {b : Nat} (hb : b < 256) (rest : List Char) :
    percentDecode ((quoteByte [] b).data ++ rest) =
      (percentDecode rest).map (b :: ·) := by
  by_cases hs : alwaysSafeByte b = true
  · obtain ⟨hb1, hb0, hb2, hb3⟩ := alwaysSafeByte_bounds hs
    rw [quoteByte_data_safe hs]
    have hne : (Char.ofNat b == '%') = false := by
      rw [beq_eq_false_iff_ne]
      intro he
      have h37 := congrArg Char.toNat he
      rw [@toNat_ofNat_lt b (by omega), show ('%').toNat = 37 from rfl] at h37
      omega
    show percentDecode (Char.ofNat b :: rest) = _
    rw [percentDecode_cons, hne]
    simp only [Bool.false_eq_true, if_false]
    rw [@toNat_ofNat_lt b (by omega)]
    cases h : percentDecode rest <;> simp
  · rw [quoteByte_data_escaped hs]
    show percentDecode ('%' :: hexUpper (b / 16) :: hexUpper (b % 16) :: rest) = _
    rw [percentDecode_cons]
    simp only [beq_self_eq_true, if_true]
    rw [hexVal_hexUpper (by omega), hexVal_hexUpper (by omega)]
    have harith : 16 * (b / 16) + b % 16 = b := by omega
    cases h : percentDecode rest <;> simp [harith]

theorem percentDecode_quoteBytes_aux (bs : List Nat) (hb : ∀ b ∈ bs, b < 256)
    (rest : List Char) :
    percentDecode ((concatAll (bs.map (quoteByte []))).data ++ rest) =
      (percentDecode rest).map (bs ++ ·) := by
  induction bs with
  | nil =>
    show percentDecode (([] : List Char) ++ rest) = _
    rw [List.nil_append]
    cases h : percentDecode rest <;> simp
  | cons b bs2 ih =>
    show percentDecode ((quoteByte [] b ++ concatAll (bs2.map (quoteByte []))).data
      ++ rest) = _
    rw [String.data_append, List.append_assoc,
      percentDecode_quoteByte (hb b (by simp)),
      ih (fun x hx => hb x (List.mem_cons_of_mem _ hx))]
    cases h : percentDecode rest <;> simp

theorem percentDecode_pyQuote (s : String) :
    percentDecode (pyQuote [] s).data = some (utf8Encode s) := by
  have hlt : ∀ b ∈ utf8Encode s, b < 256 := by
    intro b hb
    rw [utf8Encode, List.mem_flatten] at hb
    obtain ⟨piece, hp, hbp⟩ := hb
    rw [List.mem_map] at hp
    obtain ⟨c, hc, rfl⟩ := hp
    have hv : c.toNat.isValidChar := c.valid
    have hcn : c.toNat < 1114112 := by
      rcases hv with h | ⟨h1, h2⟩ <;> omega
    unfold utf8EncodeChar at hbp
    dsimp only at hbp
    split at hbp
    · simp at hbp; omega
    · split at hbp
      · simp at hbp
        rcases hbp with rfl | rfl <;> omega
      · split at hbp
        · simp at hbp
          rcases hbp with rfl | rfl | rfl <;> omega
        · simp at hbp
          rcases hbp with rfl | rfl | rfl | rfl <;> omega
  have h := percentDecode_quoteBytes_aux (utf8Encode s) hlt []
  rw [List.append_nil] at h
  rw [show pyQuote [] s = concatAll ((utf8Encode s).map (quoteByte [])) from rfl]
  rw [h, show percentDecode [] = some [] from rfl]
  simp

theorem mkChar_toNat (c : Char) : mkChar c.toNat = some c := by
  have hv : c.toNat.isValidChar := c.valid
  unfold mkChar
  rw [if_pos hv, Char.ofNat_toNat]

theorem utf8Decode_cons (b : Nat) (bs : List Nat) :
    utf8Decode (b :: bs) =
      match utf8DecodeOne b bs with
      | some (c, k) => (utf8Decode (bs.drop k)).map (c :: ·)
      | none => none := by
  rw [utf8Decode]

theorem utf8DecodeOne_encodeChar (c : Char) (bs : List Nat) :
    utf8DecodeOne (List.headD (utf8EncodeChar c) 0) ((utf8EncodeChar c).tail ++ bs) =
      some (c, (utf8EncodeChar c).tail.length) ∧
    ((utf8EncodeChar c).tail ++ bs).drop (utf8EncodeChar c).tail.length = bs := by
  have hv : c.toNat.isValidChar := c.valid
  have hcn : c.toNat < 1114112 := by
    rcases hv with h | ⟨ha, hb⟩ <;> omega
  unfold utf8EncodeChar
  dsimp only
  by_cases h1 : c.toNat < 128
  · rw [if_pos h1]
    refine ⟨?_, by simp⟩
    show utf8DecodeOne c.toNat bs = _
    unfold utf8DecodeOne
    rw [if_pos h1, mkChar_toNat]
    rfl
  · rw [if_neg h1]
    by_cases h2 : c.toNat < 2048
    · rw [if_pos h2]
      refine ⟨?_, by simp⟩
      show utf8DecodeOne (192 + c.toNat / 64) ((128 + c.toNat % 64) :: bs) = _
      unfold utf8DecodeOne
      rw [if_neg (by omega), if_pos (by omega)]
      dsimp only
      rw [if_pos (by simp only [contByte, Bool.and_eq_true, decide_eq_true_eq]; omega)]
      have e2 := Nat.div_add_mod c.toNat 64
      have harith : (192 + c.toNat / 64 - 192) * 64 + (128 + c.toNat % 64 - 128) =
          c.toNat := by omega
      rw [harith, mkChar_toNat]
      rfl
    · rw [if_neg h2]
      by_cases h3 : c.toNat < 65536
      · rw [if_pos h3]
        refine ⟨?_, by simp⟩
        show utf8DecodeOne (224 + c.toNat / 4096)
          ((128 + c.toNat / 64 % 64) :: (128 + c.toNat % 64) :: bs) = _
        unfold utf8DecodeOne
        rw [if_neg (by omega), if_neg (by omega), if_pos (by omega)]
        dsimp only
        rw [if_pos (by simp only [contByte, Bool.and_eq_true, decide_eq_true_eq]; omega)]
        have e1 : c.toNat / 4096 = c.toNat / 64 / 64 := by
          rw [Nat.div_div_eq_div_mul]
        have e2 := Nat.div_add_mod c.toNat 64
        have e3 := Nat.div_add_mod (c.toNat / 64) 64
        have harith : ((224 + c.toNat / 4096 - 224) * 64 + (128 + c.toNat / 64 % 64 - 128))
            * 64 + (128 + c.toNat % 64 - 128) = c.toNat := by omega
        rw [harith, mkChar_toNat]
        rfl
      · rw [if_neg h3]
        refine ⟨?_, by simp⟩
        show utf8DecodeOne (240 + c.toNat / 262144)
          ((128 + c.toNat / 4096 % 64) :: (128 + c.toNat / 64 % 64) ::
            (128 + c.toNat % 64) :: bs) = _
        unfold utf8DecodeOne
        rw [if_neg (by omega), if_neg (by omega), if_neg (by omega)]
        dsimp only
        rw [if_pos (by simp only [contByte, Bool.and_eq_true, decide_eq_true_eq]; omega)]
        have e1 : c.toNat / 4096 = c.toNat / 64 / 64 := by
          rw [Nat.div_div_eq_div_mul]
        have e0 : c.toNat / 262144 = c.toNat / 64 / 64 / 64 := by
          rw [Nat.div_div_eq_div_mul, Nat.div_div_eq_div_mul]
        have e2 := Nat.div_add_mod c.toNat 64
        have e3 := Nat.div_add_mod (c.toNat / 64) 64
        have e4 := Nat.div_add_mod (c.toNat / 64 / 64) 64
        have harith : (((240 + c.toNat / 262144 - 240) * 64 +
            (128 + c.toNat / 4096 % 64 - 128)) * 64 + (128 + c.toNat / 64 % 64 - 128))
            * 64 + (128 + c.toNat % 64 - 128) = c.toNat := by omega
        rw [harith, mkChar_toNat]
        rfl

theorem utf8EncodeChar_head_tail (c : Char) :
    utf8EncodeChar c = List.headD (utf8EncodeChar c) 0 :: (utf8EncodeChar c).tail := by
  unfold utf8EncodeChar
  dsimp only
  split
  · rfl
  · split
    · rfl
    · split <;> rfl

theorem utf8Decode_encodeChar (c : Char) (bs : List Nat) :
    utf8Decode (utf8EncodeChar c ++ bs) = (utf8Decode bs).map (c :: ·) := by
  obtain ⟨hone, hdrop⟩ := utf8DecodeOne_encodeChar c bs
  rw [utf8EncodeChar_head_tail c, List.cons_append, utf8Decode_cons, hone]
  dsimp only
  rw [hdrop]

theorem utf8Decode_encode (cs : List Char) :
    utf8Decode ((cs.map utf8EncodeChar).flatten) = some cs := by
  induction cs with
  | nil => simp [utf8Decode]
  | cons c cs2 ih =>
    rw [List.map_cons, List.flatten_cons, utf8Decode_encodeChar, ih]
    rfl

theorem pyUnquote_pyQuote (s : String) : pyUnquote (pyQuote [] s) = some s := by
  unfold pyUnquote
  rw [percentDecode_pyQuote]
  dsimp only
  rw [show utf8Encode s = (s.data.map utf8EncodeChar).flatten from rfl, utf8Decode_encode]

theorem pyQuote_injective {s1 s2 : String} (h : pyQuote [] s1 = pyQuote [] s2) :
    s1 = s2 := by
  have h1 := pyUnquote_pyQuote s1
  rw [h, pyUnquote_pyQuote s2] at h1
  exact (Option.some.inj h1).symm

theorem intercalate_cons2 (sep : Char) (a b : List Char) (l : List (List Char)) :
    List.intercalate [sep] (a :: b :: l) =
      a ++ [sep] ++ List.intercalate [sep] (b :: l) := by
  simp [List.intercalate, List.intersperse]

theorem joinSep_data (sep : Char) (l : List String) :
    (joinSep sep l).data = List.intercalate [sep] (l.map String.data) := by
  induction l with
  | nil => rfl
  | cons x xs ih =>
    cases xs with
    | nil => simp [joinSep, List.intercalate]
    | cons y ys =>
      show (x ++ String.singleton sep ++ joinSep sep (y :: ys)).data = _
      rw [List.map_cons, List.map_cons, intercalate_cons2, String.data_append,
        String.data_append, String.data_singleton, ih, List.map_cons]

theorem amp_not_mem_pair (k v : String) :
    '&' ∉ (pyQuote [] k ++ "=" ++ pyQuote [] v).data := by
  intro h
  simp only [String.data_append, List.mem_append] at h
  rcases h with (h | h) | h
  · exact (pyQuote_chars h).2.1 rfl
  · simp only [show ("=").data = ['='] from rfl, List.mem_singleton] at h
    exact absurd h (by decide)
  · exact (pyQuote_chars h).2.1 rfl

theorem eq_not_mem_quote (s : String) : '=' ∉ (pyQuote [] s).data := by
  intro h
  exact (pyQuote_chars h).2.2 rfl

theorem splitOn_canonical (topic msg ts ak : String) :
    (specCanonicalQuery topic msg ts ak).data.splitOn '&' =
      (specSortedPairs topic msg ts ak).map
        (fun kv => (pyQuote [] kv.1 ++ "=" ++ pyQuote [] kv.2).data) := by
  rw [show specCanonicalQuery topic msg ts ak =
    joinSep '&' ((specSortedPairs topic msg ts ak).map
      (fun kv => pyQuote [] kv.1 ++ "=" ++ pyQuote [] kv.2)) from rfl]
  rw [joinSep_data, List.map_map]
  apply List.splitOn_intercalate
  · intro l hl
    rw [List.mem_map] at hl
    obtain ⟨kv, hkv, rfl⟩ := hl
    exact amp_not_mem_pair kv.1 kv.2
  · simp [specSortedPairs]

theorem splitOn_pair (k v : String) :
    (pyQuote [] k ++ "=" ++ pyQuote [] v).data.splitOn '=' =
      [(pyQuote [] k).data, (pyQuote [] v).data] := by
  have hform : (pyQuote [] k ++ "=" ++ pyQuote [] v).data =
      List.intercalate ['='] [(pyQuote [] k).data, (pyQuote [] v).data] := by
    rw [intercalate_cons2]
    simp [String.data_append, List.intercalate, show ("=").data = ['='] from rfl]
  rw [hform]
  apply List.splitOn_intercalate
  · intro l hl
    simp only [List.mem_cons, List.not_mem_nil, or_false] at hl
    rcases hl with rfl | rfl <;> exact eq_not_mem_quote _
  · simp

theorem splitKV_pair (k v : String) :
    splitKV ((pyQuote [] k ++ "=" ++ pyQuote [] v).data) = some (k, v) := by
  unfold splitKV
  rw [splitOn_pair]
  dsimp only
  rw [show String.mk (pyQuote [] k).data = pyQuote [] k from rfl,
    show String.mk (pyQuote [] v).data = pyQuote [] v from rfl,
    pyUnquote_pyQuote, pyUnquote_pyQuote]

theorem parseQuery_canonical (topic msg ts ak : String) :
    parseQuery (paramsHttp (snsParams topic msg ts ak)) =
      some (specSortedPairs topic msg ts ak) := by
  unfold parseQuery
  rw [paramsHttp_eq, splitOn_canonical]
  simp only [specSortedPairs, List.map_cons, List.map_nil, List.mapM_cons,
    List.mapM_nil, splitKV_pair, Option.pure_def, Option.bind_eq_bind,
    Option.bind_some]
  rfl

theorem dictGet_sorted (topic msg ts ak k : String) :
    dictGet (specSortedPairs topic msg ts ak) k =
      dictGet (snsParams topic msg ts ak) k := by
  by_cases h1 : k = "TopicArn"
  · subst h1; rfl
  by_cases h2 : k = "Message"
  · subst h2; rfl
  by_cases h3 : k = "Timestamp"
  · subst h3; rfl
  by_cases h4 : k = "AWSAccessKeyId"
  · subst h4; rfl
  by_cases h5 : k = "Action"
  · subst h5; rfl
  by_cases h6 : k = "SignatureVersion"
  · subst h6; rfl
  by_cases h7 : k = "SignatureMethod"
  · subst h7; rfl
  have n1 : (("TopicArn" : String) == k) = false := by
    rw [beq_eq_false_iff_ne]; exact fun hh => h1 hh.symm
  have n2 : (("Message" : String) == k) = false := by
    rw [beq_eq_false_iff_ne]; exact fun hh => h2 hh.symm
  have n3 : (("Timestamp" : String) == k) = false := by
    rw [beq_eq_false_iff_ne]; exact fun hh => h3 hh.symm
  have n4 : (("AWSAccessKeyId" : String) == k) = false := by
    rw [beq_eq_false_iff_ne]; exact fun hh => h4 hh.symm
  have n5 : (("Action" : String) == k) = false := by
    rw [beq_eq_false_iff_ne]; exact fun hh => h5 hh.symm
  have n6 : (("SignatureVersion" : String) == k) = false := by
    rw [beq_eq_false_iff_ne]; exact fun hh => h6 hh.symm
  have n7 : (("SignatureMethod" : String) == k) = false := by
    rw [beq_eq_false_iff_ne]; exact fun hh => h7 hh.symm
  simp [specSortedPairs, snsParams, dictGet, n1, n2, n3, n4, n5, n6, n7]

/-! ## Claims about the policy layer -/

set_option maxRecDepth 4096 in
/-- C1: for every who, message, topic, access key and timestamp, the
canonical query of the publisher is exactly: the seven-entry parameter
mapping (with `Message = who ++ " - " ++ message` and the timestamp
formatted with hard-coded `.000` milliseconds), keys sorted in ascending
byte order, every key and value percent-encoded with unreserved set
exactly `[A-Za-z0-9]` plus `-_.~` (all other bytes escaped), joined as
`key=value` pairs with `&` and no trailing separator. -/
theorem c1_canonicalQuery (who message topic ak : String) (t : Nat) :
    paramsHttp (snsParams topic (who ++ " - " ++ message) (formatTimestamp t) ak) =
      specCanonicalQuery topic (who ++ " - " ++ message) (formatTimestamp t) ak ∧
    (∃ ymdhms, formatTimestamp t = ymdhms ++ ".000Z") ∧
    ((specSortedPairs topic (who ++ " - " ++ message) (formatTimestamp t) ak).map Prod.fst =
      sortStrings ((snsParams topic (who ++ " - " ++ message) (formatTimestamp t) ak).map
        Prod.fst)) ∧
    chainLe ((specSortedPairs topic (who ++ " - " ++ message) (formatTimestamp t) ak).map
      Prod.fst) = true ∧
    (∀ b : Fin 256, quoteByte [] b.val =
      if specUnreserved b.val = true then String.singleton (Char.ofNat b.val)
      else String.mk ['%', hexUpper (b.val / 16), hexUpper (b.val % 16)]) := by
  refine ⟨paramsHttp_eq _ _ _ _, ⟨_, rfl⟩, rfl, rfl, ?_⟩
  decide

/-- C2 counterexample: a configuration with non-empty credentials and
topic whose secret key is not ASCII.  The gate passes (`force = true`),
the credential check passes, yet `bytes(secret_key, 'ascii')` raises
`UnicodeEncodeError` before any URL is built: no HTTP request with the
claimed final URL (or any URL at all) is issued, contradicting the claim
as stated for this configuration. -/
theorem c2_counterexample :
    (Config.mk [] false [] "host" "topic1" "AK" "é" false false).aws_access_key ≠ "" ∧
    (Config.mk [] false [] "host" "topic1" "AK" "é" false false).aws_secret_key ≠ "" ∧
    (Config.mk [] false [] "host" "topic1" "AK" "é" false false).sns_topic ≠ "" ∧
    (notifyModel (Config.mk [] false [] "host" "topic1" "AK" "é" false false) false
      "w" "m" true 0 (fun _ => Except.ok [])).calls = [] ∧
    (notifyModel (Config.mk [] false [] "host" "topic1" "AK" "é" false false) false
      "w" "m" true 0 (fun _ => Except.ok [])).result =
      Except.error "UnicodeEncodeError" := by
  refine ⟨by decide, by decide, by decide, ?_, ?_⟩ <;> rfl

/-- C2 (amended: the claim holds provided `endpoint` and `aws_secret_key`
are ASCII-encodable; otherwise `bytes(-, 'ascii')` raises before any URL
is built, see the counterexample): the string that is signed is exactly
`"GET" ++ "\n" ++ endpoint ++ "\n" ++ "/" ++ "\n" ++ canonicalQuery`; the
signature is the whitespace-stripped base64 HMAC-SHA256 of it keyed with
the secret-key bytes; the URL issued is exactly
`"http://" ++ endpoint ++ "/?" ++ canonicalQuery ++ "&Signature=" ++ sig`
with `sig` encoded by the second, plus-for-space encoder, which escapes
`+`, `/` and `=` and differs from the canonical-query encoder. -/
theorem c2_signedUrl (cfg : Config) (who message : String) (now : Nat)
    (http : String → Except String (List Nat))
    (hep : allAscii cfg.endpoint = true) (hsk : allAscii cfg.aws_secret_key = true) :
    (buildAndSend cfg who message now http).calls =
      ["http://" ++ cfg.endpoint ++ "/?" ++
        specCanonicalQuery cfg.sns_topic (who ++ " - " ++ message) (formatTimestamp now)
          cfg.aws_access_key ++ "&Signature=" ++
        pyQuotePlus (pyStrip (base64Encode (hmacSha256 (asciiBytes cfg.aws_secret_key)
          (asciiBytes ("GET" ++ "\n" ++ cfg.endpoint ++ "\n" ++ "/" ++ "\n" ++
            specCanonicalQuery cfg.sns_topic (who ++ " - " ++ message) (formatTimestamp now)
              cfg.aws_access_key)))))] ∧
    (buildAndSend cfg who message now http).result = Except.ok () ∧
    pyQuotePlus "+" = "%2B" ∧ pyQuotePlus "/" = "%2F" ∧ pyQuotePlus "=" = "%3D" ∧
    pyQuotePlus " " = "+" ∧ pyQuote [] " " ≠ pyQuotePlus " " := by
  rw [buildAndSend_ok cfg who message now http hep hsk]
  dsimp only
  rw [paramsHttp_eq, joinSep4]
  refine ⟨?_, ?_, by decide, by decide, by decide, by decide, by decide⟩ <;>
    split <;> rfl

theorem c2_signedUrl_witness :
    (buildAndSend ⟨[], false, [], "ep", "top", "AK", "sec", false, false⟩ "w" "m" 0
      (fun _ => Except.ok [])).result = Except.ok () :=
  (c2_signedUrl ⟨[], false, [], "ep", "top", "AK", "sec", false, false⟩ "w" "m" 0
    (fun _ => Except.ok []) (by decide) (by decide)).2.1

/-- C9: two configurations differing only in the secret key produce the
same canonical query (the query term does not involve the secret), and
their final URLs share the whole stem up to `&Signature=`, differing at
most in the encoded signature value; moreover, whenever the two secrets
sign to the same value, the publisher's entire observable behaviour —
the URL fetched and everything logged, including the transport-failure
debug output — is identical, so the secret influences the URL and the
logs only through the HMAC-SHA256 signature. -/
theorem c9_secret_noninterference (chans : List String) (tpms : Bool)
    (twords : List String) (ep topic ak sk1 sk2 : String) (always auto : Bool)
    (who message : String) (now : Nat) (http : String → Except String (List Nat))
    (hep : allAscii ep = true) (h1 : allAscii sk1 = true) (h2 : allAscii sk2 = true) :
    (∃ stem,
      (buildAndSend ⟨chans, tpms, twords, ep, topic, ak, sk1, always, auto⟩
        who message now http).calls =
        [stem ++ pyQuotePlus (pyStrip (base64Encode (hmacSha256 (asciiBytes sk1)
          (asciiBytes (joinSep '\n' ["GET", ep, "/",
            paramsHttp (snsParams topic (who ++ " - " ++ message)
              (formatTimestamp now) ak)])))))] ∧
      (buildAndSend ⟨chans, tpms, twords, ep, topic, ak, sk2, always, auto⟩
        who message now http).calls =
        [stem ++ pyQuotePlus (pyStrip (base64Encode (hmacSha256 (asciiBytes sk2)
          (asciiBytes (joinSep '\n' ["GET", ep, "/",
            paramsHttp (snsParams topic (who ++ " - " ++ message)
              (formatTimestamp now) ak)])))))] ∧
      stem = "http://" ++ ep ++ "/?" ++
        paramsHttp (snsParams topic (who ++ " - " ++ message) (formatTimestamp now) ak) ++
        "&Signature=") ∧
    (signatureOf sk1 (joinSep '\n' ["GET", ep, "/",
        paramsHttp (snsParams topic (who ++ " - " ++ message) (formatTimestamp now) ak)]) =
      signatureOf sk2 (joinSep '\n' ["GET", ep, "/",
        paramsHttp (snsParams topic (who ++ " - " ++ message) (formatTimestamp now) ak)]) →
      buildAndSend ⟨chans, tpms, twords, ep, topic, ak, sk1, always, auto⟩
        who message now http =
      buildAndSend ⟨chans, tpms, twords, ep, topic, ak, sk2, always, auto⟩
        who message now http) := by
  constructor
  · refine ⟨"http://" ++ ep ++ "/?" ++
      paramsHttp (snsParams topic (who ++ " - " ++ message) (formatTimestamp now) ak) ++
      "&Signature=", ?_, ?_, rfl⟩
    · rw [buildAndSend_ok _ _ _ _ _ hep h1]
      dsimp only
      split <;> rfl
    · rw [buildAndSend_ok _ _ _ _ _ hep h2]
      dsimp only
      split <;> rfl
  · intro hsig
    unfold buildAndSend
    dsimp only
    rw [hsig]

theorem c9_secret_noninterference_witness :
    buildAndSend ⟨[], false, [], "ep", "top", "AK", "sec", false, false⟩ "w" "m" 0
        (fun _ => Except.ok []) =
      buildAndSend ⟨[], false, [], "ep", "top", "AK", "sec", false, false⟩ "w" "m" 0
        (fun _ => Except.ok []) :=
  (c9_secret_noninterference [] false [] "ep" "top" "AK" "sec" "sec" false false
    "w" "m" 0 (fun _ => Except.ok []) (by decide) (by decide) (by decide)).2 rfl

/-- C7: splitting the canonical query at `&` and `=` and percent-decoding
every key and value recovers exactly the original (pre-encoding) parameter
mapping: the parsed association list is the sorted original pairs, it
agrees with the original dict under lookup at every key, and the encoder
is injective and inverted by standard percent-decoding. -/
theorem c7_roundTrip (who message topic ak : String) (t : Nat) :
    parseQuery (paramsHttp (snsParams topic (who ++ " - " ++ message)
        (formatTimestamp t) ak)) =
      some (specSortedPairs topic (who ++ " - " ++ message) (formatTimestamp t) ak) ∧
    (∀ k, dictGet (specSortedPairs topic (who ++ " - " ++ message)
        (formatTimestamp t) ak) k =
      dictGet (snsParams topic (who ++ " - " ++ message) (formatTimestamp t) ak) k) ∧
    (∀ s : String, pyUnquote (pyQuote [] s) = some s) ∧
    (∀ s1 s2 : String, pyQuote [] s1 = pyQuote [] s2 → s1 = s2) :=
  ⟨parseQuery_canonical _ _ _ _, fun k => dictGet_sorted _ _ _ _ k,
    pyUnquote_pyQuote, fun _ _ h => pyQuote_injective h⟩

theorem c7_roundTrip_witness :
    pyUnquote (pyQuote [] "a b/c+x") = some "a b/c+x" ∧ ("xy" : String) = "xy" :=
  ⟨(c7_roundTrip "w" "m" "t" "a" 0).2.2.1 "a b/c+x",
    (c7_roundTrip "w" "m" "t" "a" 0).2.2.2 "xy" "xy" rfl⟩

/-- C3: for every `ChannelMessage` event, `OnChanMsg` produces a
notification request iff the case-normalised channel is in
`monitor_channels` and some trigger word occurs case-insensitively in the
message text; the produced request has `who = "{channel} ({nick}@)"` and
carries the message text unchanged. -/
theorem onChanMsg_iff (cfg : Config) (nick channel message : String) :
    (onChanMsgEval cfg nick channel message ≠ none ↔
      pyLower channel ∈ cfg.monitor_channels ∧
        ∃ t ∈ cfg.trigger_words, pyIn (pyLower t) (pyLower message) = true) ∧
    (∀ r, onChanMsgEval cfg nick channel message = some r →
      r.who = channel ++ " (" ++ nick ++ "@)" ∧ r.message = message) := by
  unfold onChanMsgEval
  rw [trigLoop_eq_any]
  constructor
  · cases hmb : cfg.monitor_channels.contains (pyLower channel) <;>
      cases hab : cfg.trigger_words.any (fun t => pyIn (pyLower t) (pyLower message)) <;>
      rw [← contains_iff, hmb, ← any_iff_exists, hab] <;> simp
  · intro r hr
    cases hmb : cfg.monitor_channels.contains (pyLower channel) <;>
      cases hab : cfg.trigger_words.any (fun t => pyIn (pyLower t) (pyLower message)) <;>
      rw [hmb, hab] at hr <;> simp_all
    exact ⟨congrArg NotificationRequest.who hr.symm,
      congrArg NotificationRequest.message hr.symm⟩

/-- C4: a produced request is dispatched (reaches the publisher body of
`_notify`) iff `always_send_notifications`, or `auto_notifications_on_dc`
with no client attached, or the request's `force` flag — subject
additionally to the credential-presence check. -/
theorem dispatch_gate (cfg : Config) (attached : Bool) (who message : String)
    (force : Bool) (now : Nat) (http : String → Except String (List Nat)) :
    (notifyModel cfg attached who message force now http).dispatched = true ↔
      ((cfg.always_send_notifications = true ∨
          (cfg.auto_notifications_on_dc = true ∧ attached = false)) ∨ force = true) ∧
        (cfg.aws_access_key ≠ "" ∧ cfg.aws_secret_key ≠ "" ∧ cfg.sns_topic ≠ "") := by
  rw [notifyModel_eq]
  cases hD : cfg.auto_notifications_on_dc <;> cases hAt : attached <;>
    cases hA : cfg.always_send_notifications <;> cases hF : force <;>
    by_cases hc : cfg.aws_access_key = "" ∨ cfg.aws_secret_key = "" ∨ cfg.sns_topic = "" <;>
    simp_all [buildAndSend_dispatched] <;> tauto

/-- C5: when any of the access key, secret key or topic is empty,
`_notify` is a silent no-op: it makes no HTTP call, logs nothing and
raises nothing, whatever the gate and force flags say. -/
theorem creds_suppress (cfg : Config) (attached : Bool) (who message : String)
    (force : Bool) (now : Nat) (http : String → Except String (List Nat))
    (h : cfg.aws_access_key = "" ∨ cfg.aws_secret_key = "" ∨ cfg.sns_topic = "") :
    notifyModel cfg attached who message force now http =
      ⟨false, Except.ok (), [], []⟩ := by
  rw [notifyModel_eq]
  split <;> rfl

/-- C6: `OnClientDisconnect` calls `_notify` iff `auto_notifications_on_dc`
is set, and then with exactly who `"HallMonitor"`, the fixed disconnect
message, and `force = true`. -/
theorem clientDisconnect_spec (cfg : Config) :
    onClientDisconnectEval cfg =
      (if cfg.auto_notifications_on_dc = true then
        some ⟨"HallMonitor", "Detected client disconnect. Enabling notifications.", true⟩
      else none) ∧
    (∀ r, onClientDisconnectEval cfg = some r → r.force = true) := by
  constructor
  · unfold onClientDisconnectEval
    cases h : cfg.auto_notifications_on_dc <;> simp
  · intro r hr
    unfold onClientDisconnectEval at hr
    cases h : cfg.auto_notifications_on_dc <;> rw [h] at hr <;> simp_all
    rw [← hr]

/-- C8: the transport outcome never escapes `_notify`: the returned result
is the same as under an always-successful transport (errors are swallowed),
at most one HTTP call is made (no retry), and the response body does not
influence the outcome at all (it is discarded). -/
theorem transport_swallowed (cfg : Config) (attached : Bool) (who message : String)
    (force : Bool) (now : Nat) :
    (∀ http, (notifyModel cfg attached who message force now http).result =
      (notifyModel cfg attached who message force now (fun _ => Except.ok [])).result) ∧
    (∀ http, (notifyModel cfg attached who message force now http).calls.length ≤ 1) ∧
    (∀ b1 b2, notifyModel cfg attached who message force now (fun _ => Except.ok b1) =
      notifyModel cfg attached who message force now (fun _ => Except.ok b2)) := by
  refine ⟨fun http => ?_, fun http => ?_, fun b1 b2 => ?_⟩
  · rw [notifyModel_eq, notifyModel_eq]
    split
    · split
      · rfl
      · unfold buildAndSend
        dsimp only
        split
        · rfl
        · split <;> rfl
    · rfl
  · rw [notifyModel_eq]
    split
    · split
      · simp
      · unfold buildAndSend
        dsimp only
        split
        · simp
        · split <;> simp
    · simp
  · rw [notifyModel_eq, notifyModel_eq]
    split
    · split
      · rfl
      · unfold buildAndSend
        dsimp only
    · rfl

/-- C10: if the empty string is among the trigger words, every channel
message on a monitored channel produces a notification request, whatever
its text. -/
theorem emptyTrigger_fires (cfg : Config) (nick channel message : String)
    (h1 : "" ∈ cfg.trigger_words)
    (h2 : cfg.monitor_channels.contains (pyLower channel) = true) :
    onChanMsgEval cfg nick channel message =
      some ⟨channel ++ " (" ++ nick ++ "@)", message, false⟩ := by
  have ht : trigLoop message cfg.trigger_words = true := by
    rw [trigLoop_eq_any]
    exact List.any_eq_true.mpr ⟨"", h1, by rw [show pyLower "" = "" from rfl, pyIn_empty]⟩
  unfold onChanMsgEval
  rw [h2, ht]
  rfl

/-! ## Witnesses for the policy-layer claims -/

theorem onChanMsg_iff_witness :
    (⟨"#ops (alice@)", "there is an OUTAGE now", false⟩ : NotificationRequest).who =
        "#ops" ++ " (" ++ "alice" ++ "@)" ∧
      (⟨"#ops (alice@)", "there is an OUTAGE now", false⟩ : NotificationRequest).message =
        "there is an OUTAGE now" :=
  (onChanMsg_iff ⟨["#ops"], false, ["outage"], "", "", "", "", false, false⟩
    "alice" "#ops" "there is an OUTAGE now").2 _ (by decide)

theorem creds_suppress_witness :
    notifyModel ⟨[], false, [], "host", "topic1", "AK", "", false, false⟩ true
      "w" "m" true 0 (fun _ => Except.ok []) = ⟨false, Except.ok (), [], []⟩ :=
  creds_suppress _ _ _ _ _ _ _ (Or.inr (Or.inl rfl))

theorem clientDisconnect_spec_witness :
    (⟨"HallMonitor", "Detected client disconnect. Enabling notifications.", true⟩ :
      NotificationRequest).force = true :=
  (clientDisconnect_spec ⟨[], false, [], "", "", "", "", false, true⟩).2 _ (by decide)

theorem emptyTrigger_fires_witness :
    onChanMsgEval ⟨["#c"], false, [""], "", "", "", "", false, false⟩ "bob" "#C" "zzz" =
      some ⟨"#C" ++ " (" ++ "bob" ++ "@)", "zzz", false⟩ :=
  emptyTrigger_fires _ _ _ _ (by decide) (by decide)

end HM
